import Mathlib

/-!
Verification development for the go-drive core: a shallow embedding of the
copy/move engine and content helpers (`common/drive_util`) and the WebDAV
backend driver (`drive/webdav.go`), together with theorems settling the stated
properties of the specification against that embedding.

Conventions of the embedding:
- Go `error` values become the inductive `Err`; a `nil` error is `none` /
  `Except.ok`.
- Stateful collaborators (drives, task contexts, HTTP) are oracles over an
  abstract world type `W`; every effectful call consumes and returns a world,
  so consecutive calls may observe different results (e.g. a task context whose
  cancellation flag flips between polls).
- `io.Reader` streams are lists of read events (a data chunk or an error);
  the end of the list is end-of-stream (EOF).
- Counters and sizes are `Nat`/`Int`; no machine-integer overflow is relevant
  to the embedded fragments.
-/

namespace GoDrive

/-- Error kinds of `go-drive/common/errors` (plus plain I/O errors), as used by
the embedded code. `notFound`, `notAllowed`, `unsupported`, `unauthorized`,
`remoteApi` mirror the constructors `NewNotFoundError`,
`NewNotAllowedMessageError`, `NewUnsupportedError`, `NewUnauthorizedError`,
`NewRemoteApiError`; `preconditionFailed` is the package-local sentinel of
`drive/webdav.go`; `canceled` is `task.ErrorCanceled`; `ioError` stands for an
unclassified local I/O or network error. -/
inductive Err where
  | notFound
  | notAllowed (msg : String)
  | unsupported
  | unauthorized (msg : String)
  | remoteApi (status : Nat) (msg : String)
  | preconditionFailed
  | canceled
  | ioError (tag : String)
deriving DecidableEq, Repr

/-- Modelled from the spec: the internationalized message lookup is the opaque
collaborator `Translate(key, args...) -> string` (spec sections 1 and 6); it is
modelled injectively as the key followed by its arguments. -/
def i18nT (key : String) (args : List String) : String :=
  key ++ String.join (args.map (fun a => "," ++ a))

/-! ## Path utilities

`common/utils` (`CleanPath`, `PathBase`, `PathParent`, `PathDepth`,
`path.Join`) is repository code that is not part of the given sources; these
helpers are modelled from the spec's path model (sections 1, 3, 4.6, 8). -/

/-- Splitter over the character list of a path: accumulates the current segment
(reversed) and emits the non-empty `/`-separated segments. -/
def splitSegsAux : List Char → List Char → List String
  | [], acc => if acc.isEmpty then [] else [String.mk acc.reverse]
  | c :: rest, acc =>
    if c = '/' then
      if acc.isEmpty then splitSegsAux rest []
      else String.mk acc.reverse :: splitSegsAux rest []
    else splitSegsAux rest (c :: acc)

/-- The non-empty `/`-separated segments of a path. -/
def splitSegs (s : String) : List String := splitSegsAux s.data []

/-- Joins segments back with `/` separators. -/
def joinSegs : List String → String
  | [] => ""
  | [s] => s
  | s :: rest => s ++ "/" ++ joinSegs rest

/-- Modelled from the spec: `utils.CleanPath` — paths are `/`-separated virtual
strings; cleaning normalizes duplicate and trailing slashes and strips the
leading slash, so the root is the empty string. -/
def cleanPath (s : String) : String := joinSegs (splitSegs s)

/-- Helper: last element of a list with a default. -/
def lastD : List String → String → String
  | [], d => d
  | [x], _ => x
  | _ :: rest, d => lastD rest d

/-- Modelled from the spec: `utils.PathBase` — the final segment of a
`/`-separated virtual path (the entry's name), empty for the root. -/
def pathBase (s : String) : String := lastD (splitSegs s) ""

/-- Modelled from the spec: `utils.PathParent` — the path with its final
segment removed. -/
def pathParent (s : String) : String := joinSegs (splitSegs s).dropLast

/-- Modelled from the spec: `path.Join` of two virtual path pieces (always
cleaned again by the callers in this embedding). -/
def pathJoin (a b : String) : String := a ++ "/" ++ b

/-- Modelled from the spec: `utils.PathDepth` — the number of segments of the
cleaned path (spec section 4.6: the listing response is filtered "by comparing
path depth"; section 8: children sit "at depth 1 relative to" their
directory). The root has depth 0. -/
def pathDepth (s : String) : Nat := (splitSegs s).length

/-! ## Streams and `drive_util.Copy`

`Copy(dst, src, ctx)` (part_000 lines 39-56) loops: it polls `ctx.Canceled()`,
then calls `io.CopyBuffer(dst, src, buf)` with a 32 KiB buffer.
`io.CopyBuffer` copies from `src` to `dst` *until EOF or the first error* (its
documented semantics), returning the bytes written and the error (`nil` on
EOF). A reader is modelled as a list of read events; the task context's
`Canceled()` is modelled as a function of the poll index (the flag may flip
between polls); `ctx.Progress` has no bearing on control flow and is not
recorded. -/

/-- One event produced by a reader: a chunk of `n` bytes (one buffered read of
at most 32 KiB), or an I/O error. -/
inductive ReadEv where
  | data (n : Nat)
  | errEv (e : Err)
deriving DecidableEq, Repr

/-- `io.CopyBuffer dst src buf`: consumes the stream until EOF or the first
error; returns (bytes written, error-or-nil, rest of the stream after an
error). On EOF the error is `none` and the stream is exhausted. -/
def copyBufferRun : List ReadEv → Nat × Option Err × List ReadEv
  | [] => (0, none, [])
  | ReadEv.data n :: rest =>
    let r := copyBufferRun rest
    (n + r.1, r.2.1, r.2.2)
  | ReadEv.errEv e :: rest => (0, some e, rest)

/-- The body of `drive_util.Copy`'s `for` loop (lines 41-54). `canceled` gives
the result of the i-th `ctx.Canceled()` poll; `polls` is the index of the next
poll; `written` is the accumulator of the same name. The returned triple is
(`written`, number of polls performed, returned error). Note the faithful
quirks of the source: when `io.CopyBuffer` reports an error `ee`, the loop
`break`s but the *named return value* `err` is never assigned, so the function
returns `nil`, and `written` is not increased by that final partial chunk. -/
def copyLoop (canceled : Nat → Bool) (polls written : Nat) (s : List ReadEv) :
    Nat × Nat × Option Err :=
  if canceled polls then (written, polls + 1, some Err.canceled)
  else
    if h1 : ((copyBufferRun s).2.1).isSome then (written, polls + 1, none)
    else
      if h2 : (copyBufferRun s).1 = 0 then (written, polls + 1, none)
      else copyLoop canceled (polls + 1) (written + (copyBufferRun s).1) (copyBufferRun s).2.2
termination_by s.length
decreasing_by
  have aux : ∀ t : List ReadEv, (copyBufferRun t).2.1 = none → (copyBufferRun t).2.2 = [] := by
    intro t
    induction t with
    | nil => intro _; rfl
    | cons a rest ih =>
      cases a with
      | data n =>
        intro h
        simpa [copyBufferRun] using ih (by simpa [copyBufferRun] using h)
      | errEv e =>
        intro h
        simp [copyBufferRun] at h
  have h1' : (copyBufferRun s).2.1 = none := by
    cases ho : (copyBufferRun s).2.1 with
    | none => rfl
    | some e => rw [ho] at h1; simp at h1
  cases s with
  | nil => simp [copyBufferRun] at h2
  | cons a t =>
    rw [aux _ h1']
    simp

/-- `drive_util.Copy(dst, src, ctx)` (lines 39-56): returns (`written`, number
of `Canceled()` polls performed, returned error). -/
def Copy (canceled : Nat → Bool) (s : List ReadEv) : Nat × Nat × Option Err :=
  copyLoop canceled 0 0 s

/-- A task context whose cancellation flag becomes (and stays) true right
after the first `Canceled()` poll. -/
def cancelAfterFirstPoll : Nat → Bool := fun i => i != 0

/-! ## Content delivery (`GetIContentReader`, `DownloadIContent`) -/

/-- `types.ContentURL`: a resolved external URL, its proxy-required mark, and
optional extra request headers. -/
structure ContentURL where
  url : String
  proxy : Bool
  header : Option (List (String × String))
deriving DecidableEq, Repr

/-- An `io.ReadCloser` obtained from a content: whether it also supports
seeking (`io.ReadSeeker`), and its stream of read events. -/
structure Reader where
  seekable : Bool
  stream : List ReadEv
deriving DecidableEq, Repr

/-- A `types.IContent`: the results of its `GetURL()` and `GetReader()`
methods, plus the metadata used by content delivery. -/
structure Content where
  getURL : Except Err ContentURL
  getReader : Except Err Reader
  name : String
  size : Int
  modTime : Int

/-- The state of a Go `http.ResponseWriter`. Per the net/http contract, the
header map may be mutated freely, but the headers actually transmitted are
snapshotted when `WriteHeader` (or the first body `Write`) fires; changing the
header map after `WriteHeader` has no effect on the wire. `headerMap` is the
mutable map, `status`/`sentHeader` what was put on the wire, `body` the number
of body bytes written. -/
structure RespState where
  headerMap : List (String × String)
  status : Option Nat
  sentHeader : List (String × String)
  body : Nat
deriving DecidableEq, Repr

/-- Map-style set on an association list (replaces any previous binding). -/
def hdrSet (h : List (String × String)) (k v : String) : List (String × String) :=
  (k, v) :: h.filter (fun kv => kv.1 ≠ k)

/-- `w.WriteHeader(code)`: a no-op if a status was already written; otherwise
records the status and snapshots the current header map onto the wire. -/
def writeHeader (w : RespState) (code : Nat) : RespState :=
  match w.status with
  | some _ => w
  | none => { w with status := some code, sentHeader := w.headerMap }

/-- `w.Header().Set(k, v)`: mutates the header map (sent only if `WriteHeader`
has not fired yet). -/
def headerSet (w : RespState) (k v : String) : RespState :=
  { w with headerMap := hdrSet w.headerMap k v }

/-- A body write of `n` bytes; triggers the implicit `WriteHeader(200)` if no
status was written yet. -/
def bodyWrite (w : RespState) (n : Nat) : RespState :=
  let w1 := writeHeader w 200
  { w1 with body := w1.body + n }

/-- The empty response-writer state handed to a handler. -/
def emptyResp : RespState :=
  { headerMap := [], status := none, sentHeader := [], body := 0 }

/-- Observable delivery effects besides the response writer: a reverse-proxy
pass-through to a destination URL, or `http.ServeContent` range-capable
serving. -/
inductive DlEv where
  | proxied (dest : String)
  | servedContent (name : String)
deriving DecidableEq, Repr

/-- `drive_util.GetIContentReader(content)` (lines 78-84). `httpGet` is the
package helper `GetURL(u, header)` performing the HTTP fetch. Faithful point:
*any* error from `content.GetURL()` — not only the unsupported kind — falls
back to `content.GetReader()`. -/
def getIContentReader (httpGet : String → Option (List (String × String)) → Except Err Reader)
    (c : Content) : Except Err Reader :=
  match c.getURL with
  | Except.ok u => httpGet u.url u.header
  | Except.error _ => c.getReader

/-- `drive_util.DownloadIContent(content, w, req, forceProxy)` (lines 94-150).
`parseURL` is `url.Parse`; `method` is the request method. Returns the final
response-writer state, the delivery effects, and the returned error. Faithful
points: the proxy branch is taken when the URL is proxy-marked, proxying is
forced, or extra headers are present; the plain-URL branch calls
`WriteHeader(302)` *before* `Header().Set("Location", ...)`; a non-unsupported
`GetURL` error returns unchanged; the non-seekable fallback sets
Content-Length and copies the body unless the method is HEAD. -/
def downloadIContent (parseURL : String → Except Err String) (c : Content) (forceProxy : Bool)
    (method : String) (w : RespState) : RespState × List DlEv × Option Err :=
  match c.getURL with
  | Except.ok u =>
    if u.proxy || forceProxy || u.header.isSome then
      match parseURL u.url with
      | Except.error e => (w, [], some e)
      | Except.ok dest => (w, [DlEv.proxied dest], none)
    else
      let w1 := writeHeader w 302
      let w2 := headerSet w1 "Location" u.url
      (w2, [], none)
  | Except.error e =>
    if e ≠ Err.unsupported then (w, [], some e)
    else
      match c.getReader with
      | Except.error e2 => (w, [], some e2)
      | Except.ok r =>
        if r.seekable then (w, [DlEv.servedContent c.name], none)
        else
          let w1 := headerSet w "Content-Length" (toString c.size)
          if method ≠ "HEAD" then
            let res := copyBufferRun r.stream
            (bodyWrite w1 res.1, [], res.2.1)
          else (w1, [], none)

/-- A content whose URL is a plain public one: no proxy mark, no extra
headers. Used to exercise the redirect branch. -/
def plainURLContent : Content :=
  { getURL := Except.ok { url := "http://h/f", proxy := false, header := none },
    getReader := Except.error Err.unsupported,
    name := "f", size := 4, modTime := 0 }

/-! ## The copy/move engine's apply walk (`copyAll`) -/

/-- `types.EntryType`: file or directory, mutually exclusive. -/
inductive EntryType where
  | file
  | dir
deriving DecidableEq, Repr

/-- The data of one snapshot entry: its virtual path, its type, its size. -/
structure EntryInfo where
  path : String
  type : EntryType
  size : Int
deriving DecidableEq, Repr

mutual
/-- `drive_util.EntryNode`: an entry plus its ordered children. -/
inductive EntryNode where
  | node (info : EntryInfo) (children : NodeList)
/-- The children list of an `EntryNode` (a specialized list so that the
engine's mutual recursion is structural). -/
inductive NodeList where
  | nil
  | cons (head : EntryNode) (tail : NodeList)
end

/-- Length of a children list. -/
def NodeList.len : NodeList → Nat
  | NodeList.nil => 0
  | NodeList.cons _ t => NodeList.len t + 1

/-- The path of a node's entry. -/
def EntryNode.pathOf : EntryNode → String
  | EntryNode.node info _ => info.path

/-- One observable event of the apply walk: an invocation of the
caller-supplied `after` callback with a node's path and its fully-processed
flag, or the skip return-path (destination file exists and overwrite is
disallowed), on which `after` is *not* invoked. -/
inductive CopyEv where
  | afterEv (path : String) (allProcessed : Bool)
  | skipEv (path : String)
deriving DecidableEq, Repr

/-- The node path an event belongs to. -/
def CopyEv.pathOf : CopyEv → String
  | CopyEv.afterEv p _ => p
  | CopyEv.skipEv p => p

/-- The oracles `copyAll` interacts with, over world type `W`:
`canceled` is `ctx.Canceled()`; `dstGet` is `driveTo.Get(to)` (with
`Except.error Err.notFound` meaning the destination does not exist);
`makeDir` is `driveTo.MakeDir(to)`; `doCopy` is the caller-supplied copy
primitive `(from, driveTo, to, ctx)`; `afterCb` is the error behaviour of the
caller-supplied `after` callback. -/
structure CopyEnv (W : Type) where
  canceled : W → Bool × W
  dstGet : W → String → W × Except Err EntryType
  makeDir : W → String → W × Option Err
  doCopy : W → String → String → W × Option Err
  afterCb : W → String → Bool → W × Option Err

/-- Destination resolution of `copyAll` (lines 220-233): skipped entirely when
the parent directory was freshly created (`newParent`); a not-found error
means "does not exist"; any other `Get` error aborts. Result: `none` when the
destination does not exist, `some t` its type when it does. -/
def resolveDst {W : Type} (env : CopyEnv W) (np : Bool) (w : W) (toP : String) :
    W × Except Err (Option EntryType) :=
  if np then (w, Except.ok none)
  else
    match env.dstGet w toP with
    | (w1, Except.error e) =>
      if e = Err.notFound then (w1, Except.ok none) else (w1, Except.error e)
    | (w1, Except.ok t) => (w1, Except.ok (some t))

/-- Directory-node preparation (lines 237-248): an existing file destination is
a type-mismatch error; an existing directory is descended into without
creating; a missing destination is created, flagging `dirCreate`. Returns the
`dirCreate` flag. -/
def dirPrep {W : Type} (env : CopyEnv W) (dst : Option EntryType) (w : W)
    (fromPath toP : String) : W × Except Err Bool :=
  match dst with
  | some t =>
    if t = EntryType.file then
      (w, Except.error (Err.notAllowed (i18nT "drive.copy_type_mismatch1" [fromPath, toP])))
    else (w, Except.ok false)
  | none =>
    match env.makeDir w toP with
    | (w1, some e) => (w1, Except.error e)
    | (w1, none) => (w1, Except.ok true)

/-- The `doCopy` invocation for a file node (lines 273-275). -/
def fileDoCopy {W : Type} (env : CopyEnv W) (w : W) (fromPath toP : String) :
    W × Except Err Bool :=
  match env.doCopy w fromPath toP with
  | (w1, some e) => (w1, Except.error e)
  | (w1, none) => (w1, Except.ok false)

/-- File-node step (lines 262-276): an existing directory destination is a
type-mismatch error; an existing file destination with overwrite disallowed is
the skip case (`Except.ok true`); otherwise the copy primitive runs
(`Except.ok false` on success). -/
def fileStep {W : Type} (env : CopyEnv W) (dst : Option EntryType) (ov : Bool) (w : W)
    (fromPath toP : String) : W × Except Err Bool :=
  match dst with
  | some t =>
    if t = EntryType.dir then
      (w, Except.error (Err.notAllowed (i18nT "drive.copy_type_mismatch2" [fromPath, toP])))
    else if ov = false then (w, Except.ok true)
    else fileDoCopy env w fromPath toP
  | none => fileDoCopy env w fromPath toP

/-- The `after` callback invocation closing a node (lines 277-280): the
invocation is recorded as an `afterEv` event; an error from the callback
aborts, otherwise the node's `allProcessed` flag is returned. -/
def runAfter {W : Type} (env : CopyEnv W) (p : String) (allp : Bool) (w : W)
    (evs : List CopyEv) : List CopyEv × W × Except Err Bool :=
  match env.afterCb w p allp with
  | (w2, some e) => (evs ++ [CopyEv.afterEv p allp], w2, Except.error e)
  | (w2, none) => (evs ++ [CopyEv.afterEv p allp], w2, Except.ok allp)

/-- The destination path of a child (line 251):
`utils.CleanPath(path.Join(to, utils.PathBase(e.Path())))`. -/
def childDest (toP : String) (c : EntryNode) : String :=
  cleanPath (pathJoin toP (pathBase (EntryNode.pathOf c)))

mutual
/-- `drive_util.copyAll(entry, driveTo, to, override, ctx, newParent, doCopy,
after)` (lines 215-281): poll cancellation; resolve the destination; for a
directory node prepare/create it and walk the children accumulating the
conjunction of their flags; for a file node either mismatch-error, skip
(returning `(false, nil)` *without* invoking `after`), or run the copy
primitive; finally invoke `after` with the node and its flag. Returns the walk
events, the final world, and `(allProcessed, error)` as `Except Err Bool`. -/
def copyAll {W : Type} (env : CopyEnv W) : EntryNode → String → Bool → Bool → W →
    List CopyEv × W × Except Err Bool
  | EntryNode.node info cs, toP, ov, np, w =>
    match env.canceled w with
    | (true, w0) => ([], w0, Except.error Err.canceled)
    | (false, w0) =>
      match resolveDst env np w0 toP with
      | (w1, Except.error e) => ([], w1, Except.error e)
      | (w1, Except.ok dst) =>
        if info.type = EntryType.dir then
          match dirPrep env dst w1 info.path toP with
          | (w2, Except.error e) => ([], w2, Except.error e)
          | (w2, Except.ok dirCreate) =>
            match copyChildren env cs toP ov dirCreate w2 with
            | (evs, w3, Except.error e) => (evs, w3, Except.error e)
            | (evs, w3, Except.ok allp) => runAfter env info.path allp w3 evs
        else
          match fileStep env dst ov w1 info.path toP with
          | (w2, Except.error e) => ([], w2, Except.error e)
          | (w2, Except.ok true) => ([CopyEv.skipEv info.path], w2, Except.ok false)
          | (w2, Except.ok false) => runAfter env info.path true w2 []
/-- The children loop of `copyAll` (lines 249-259): each child is copied to
`childDest`; an error aborts the remaining siblings; a child reporting `false`
clears the accumulated `allProcessed` without aborting the walk. -/
def copyChildren {W : Type} (env : CopyEnv W) : NodeList → String → Bool → Bool → W →
    List CopyEv × W × Except Err Bool
  | NodeList.nil, _, _, _, w => ([], w, Except.ok true)
  | NodeList.cons c rest, toP, ov, dc, w =>
    match copyAll env c (childDest toP c) ov dc w with
    | (evs, w1, Except.error e) => (evs, w1, Except.error e)
    | (evs, w1, Except.ok r) =>
      match copyChildren env rest toP ov dc w1 with
      | (evs2, w2, Except.error e) => (evs ++ evs2, w2, Except.error e)
      | (evs2, w2, Except.ok r2) => (evs ++ evs2, w2, Except.ok (r && r2))
end

mutual
/-- The node paths in the order the walk closes them (children of a directory
first, then the directory itself; a file node is just itself — `copyAll` only
descends into directory nodes). -/
def walkPaths : EntryNode → List String
  | EntryNode.node info cs =>
    if info.type = EntryType.dir then walkPathsList cs ++ [info.path] else [info.path]
/-- `walkPaths` over a children list. -/
def walkPathsList : NodeList → List String
  | NodeList.nil => []
  | NodeList.cons c rest => walkPaths c ++ walkPathsList rest
end

/-- Specification-side collector: the fully-processed flags returned by each
child's `copyAll` sub-call, run sequentially exactly like the children loop
(same destinations, same world threading), or the first error. -/
def childFlags {W : Type} (env : CopyEnv W) : NodeList → String → Bool → Bool → W →
    Except Err (List Bool)
  | NodeList.nil, _, _, _, _ => Except.ok []
  | NodeList.cons c rest, toP, ov, dc, w =>
    match copyAll env c (childDest toP c) ov dc w with
    | (_, _, Except.error e) => Except.error e
    | (_, w1, Except.ok r) =>
      match childFlags env rest toP ov dc w1 with
      | Except.error e => Except.error e
      | Except.ok fs => Except.ok (r :: fs)

/-- A copy environment (over `W := Nat`) in which nothing errors, nothing is
canceled, and every destination `Get` reports an existing *file*: a file node
copied with overwrite disallowed is therefore skipped. -/
def skipEnv : CopyEnv Nat :=
  { canceled := fun w => (false, w),
    dstGet := fun w _ => (w, Except.ok EntryType.file),
    makeDir := fun w _ => (w, none),
    doCopy := fun w _ _ => (w, none),
    afterCb := fun w _ _ => (w, none) }

/-- A single-file snapshot node. -/
def oneFileNode : EntryNode :=
  EntryNode.node { path := "a", type := EntryType.file, size := 1 } NodeList.nil

/-- A copy environment (over `W := Nat`) in which nothing errors, nothing is
canceled, and no destination exists (`Get` reports not-found everywhere). -/
def freshEnv : CopyEnv Nat :=
  { canceled := fun w => (false, w),
    dstGet := fun w _ => (w, Except.error Err.notFound),
    makeDir := fun w _ => (w, none),
    doCopy := fun w _ _ => (w, none),
    afterCb := fun w _ _ => (w, none) }

/-- A directory `s` with one file child `s/f`. -/
def dirOneChild : EntryNode :=
  EntryNode.node { path := "s", type := EntryType.dir, size := -1 }
    (NodeList.cons (EntryNode.node { path := "s/f", type := EntryType.file, size := 3 } NodeList.nil)
      NodeList.nil)

/-- A copy environment (over `W := Nat`) in which nothing errors and nothing is
canceled; the destination `Get` reports an existing directory at `d` (so the
walk descends without creating and the children are existence-checked), an
existing file at `d/a` (so that child is skipped with overwrite disallowed),
and not-found everywhere else. -/
def mixedEnv : CopyEnv Nat :=
  { canceled := fun w => (false, w),
    dstGet := fun w p =>
      (w, if p = "d" then Except.ok EntryType.dir
          else if p = "d/a" then Except.ok EntryType.file
          else Except.error Err.notFound),
    makeDir := fun w _ => (w, none),
    doCopy := fun w _ _ => (w, none),
    afterCb := fun w _ _ => (w, none) }

/-- The children list holding the two file entries `s/a` and `s/b`. -/
def twoChildrenList : NodeList :=
  NodeList.cons (EntryNode.node { path := "s/a", type := EntryType.file, size := 1 } NodeList.nil)
    (NodeList.cons (EntryNode.node { path := "s/b", type := EntryType.file, size := 2 } NodeList.nil)
      NodeList.nil)

/-- The directory `s` with the two file children above. -/
def dirTwoChildren : EntryNode :=
  EntryNode.node { path := "s", type := EntryType.dir, size := -1 } twoChildrenList

/-- A content whose `GetURL()` fails with a remote-API error (a non-unsupported
kind), and whose `GetReader()` succeeds. -/
def urlErrContent : Content :=
  { getURL := Except.error (Err.remoteApi 503 "x"),
    getReader := Except.ok { seekable := false, stream := [ReadEv.data 4] },
    name := "n", size := 4, modTime := 0 }

/-! ## WebDAV backend driver (`drive/webdav.go`) -/

/-- One `<response>` element of a PROPFIND multi-status body: its href, the
parsed content length, and whether the `resourcetype/collection` marker is
present (the last-modified text plays no role in the embedded claims and is
omitted). -/
structure PropfindResp where
  href : String
  size : Int
  isCollection : Bool
deriving DecidableEq, Repr

/-- A `webDavEntry` as far as the claims observe it: its drive-relative path,
size, and directory mark. -/
structure WebdavEntry where
  path : String
  size : Int
  isDir : Bool
deriving DecidableEq, Repr

/-- The name of a WebDAV entry (`Name()`, the path's final segment). -/
def entryNameOf (en : WebdavEntry) : String := pathBase en.path

/-- Go string slicing `s[n:]`: defined only when `n ≤ len(s)`; on a larger `n`
the Go runtime panics, modelled as `none`. (Strings are modelled as their
character sequences; the hrefs of the claims are ASCII, where Go's byte
indices coincide with character indices.) -/
def goSliceFrom (s : String) (n : Nat) : Option String :=
  if n ≤ s.length then some (String.mk (s.data.drop n)) else none

/-- `(*WebDAVDrive).newEntry(res)` (webdav.go lines 248-259): unescape the
href (the hrefs here are taken already unescaped), slice off the drive's URL
path prefix *by its length with no bounds or prefix check*, and clean the
remainder into the entry path. `none` models the slice panic on an href
shorter than the prefix. -/
def newEntryM (pfx : String) (r : PropfindResp) : Option WebdavEntry :=
  match goSliceFrom r.href pfx.length with
  | none => none
  | some rest => some { path := cleanPath rest, size := r.size, isDir := r.isCollection }

/-- The response-processing loop of `(*WebDAVDrive).List(path)` on a cache miss
(webdav.go lines 186-192): keep exactly the responses whose
`PathDepth(href) - PathDepth(pathPrefix)` is strictly greater than
`PathDepth(path)` (Go `int` arithmetic, hence the `Int` cast), building each
kept entry with `newEntry`. `none` models a panic inside `newEntry`. -/
def listEntriesM (pfx path : String) (rs : List PropfindResp) : Option (List WebdavEntry) :=
  match rs with
  | [] => some []
  | r :: rest =>
    if (pathDepth r.href : Int) - (pathDepth pfx : Int) > (pathDepth path : Int) then
      match newEntryM pfx r with
      | none => none
      | some en =>
        match listEntriesM pfx path rest with
        | none => none
        | some es => some (en :: es)
    else listEntriesM pfx path rest

/-- The multi-status responses of the spec's `List` scenario: hrefs `/x/`
(the directory's self entry), `/x/y` (a file), `/x/z/` (a collection). -/
def scenarioResponses : List PropfindResp :=
  [{ href := "/x/", size := 0, isCollection := true },
   { href := "/x/y", size := 3, isCollection := false },
   { href := "/x/z/", size := 0, isCollection := true }]

/-- `(*WebDAVDrive).afterRequest(resp)` (webdav.go lines 221-235): maps a
non-2xx status to an error — 404 to not-found, 412 to the precondition-failed
sentinel, 401 to unauthorized, anything else to `NewRemoteApiError(500, ...)`
whose *message* (not status field) carries the response status. -/
def afterRequest (status : Nat) : Option Err :=
  if status < 200 ∨ status ≥ 300 then
    if status = 404 then some Err.notFound
    else if status = 412 then some Err.preconditionFailed
    else if status = 401 then
      some (Err.unauthorized (i18nT "drive.webdav.wrong_user_or_password" []))
    else some (Err.remoteApi 500 (i18nT "drive.webdav.remote_error" [toString status]))
  else none

/-- The status field carried by a remote-API error, if the value is one. -/
def remoteApiStatusOf : Option Err → Option Nat
  | some (Err.remoteApi c _) => some c
  | _ => none

/-- A source entry as `copyOrMove` sees it: an entry of this WebDAV drive
(with its path and directory mark), a wrapper around another entry, or an
entry of a foreign drive. -/
inductive MEntry where
  | self (path : String) (isDir : Bool)
  | wrap (inner : MEntry)
  | foreign

/-- `drive_util.GetIEntry(from, w.isSelf)` (part_000 lines 19-37) specialized
to the webdav self-test: unwrap until an entry of this drive is found; `none`
when the chain exhausts without one. -/
def getSelfEntry : MEntry → Option (String × Bool)
  | MEntry.self p d => some (p, d)
  | MEntry.wrap inner => getSelfEntry inner
  | MEntry.foreign => none

/-- The oracles of the WebDAV driver, over world type `W`: `buildURL` is
`c.BuildURL(to)`; `request` is `c.RequestWithContext(method, path, headers,
...)` returning the error produced through `afterRequest`; `getEntry` is the
final `w.Get(to)`. -/
structure WebdavEnv (W : Type) where
  buildURL : String → Except Err String
  request : W → String → String → List (String × String) → W × Option Err
  getEntry : W → String → W × Except Err WebdavEntry

/-- The request headers of `copyOrMove` (webdav.go lines 145-148): the
`Destination`, plus `Overwrite: F` when overwrite is disallowed. -/
def cmHeader (override : Bool) (dest : String) : List (String × String) :=
  if override then [("Destination", dest)] else [("Destination", dest), ("Overwrite", "F")]

/-- A cache eviction `Evict(path, alsoDescendants)`. -/
inductive CacheEv where
  | evict (path : String) (descendants : Bool)
deriving DecidableEq, Repr

/-- The cache evictions of `copyOrMove` (webdav.go lines 156-161): destination
with descendants, destination parent without; for `MOVE` also the source with
descendants and the source parent without. -/
def cmEvictions (method fromPath toP : String) : List CacheEv :=
  [CacheEv.evict toP true, CacheEv.evict (pathParent toP) false] ++
    (if method = "MOVE" then
      [CacheEv.evict fromPath true, CacheEv.evict (pathParent fromPath) false]
    else [])

/-- The tail of `copyOrMove` once the request outcome was accepted: evict the
caches and return `w.Get(to)`. -/
def cmProceed {W : Type} (env : WebdavEnv W) (method fromPath toP : String) (w : W) :
    List CacheEv × W × Except Err WebdavEntry :=
  match env.getEntry w toP with
  | (w2, r) => (cmEvictions method fromPath toP, w2, r)

/-- `(*WebDAVDrive).copyOrMove(method, from, to, override, ctx)` (webdav.go
lines 135-163): resolve the source to an entry of this drive (unsupported if
none or a directory); build the destination URL; send the request with the
`Destination`/`Overwrite` headers; a request error is returned *unless*
overwrite was disallowed and the error is the precondition-failed sentinel, in
which case (as on success) the caches are evicted and `Get(to)` is returned. -/
def copyOrMove {W : Type} (env : WebdavEnv W) (method : String) (src : MEntry) (toP : String)
    (override : Bool) (w : W) : List CacheEv × W × Except Err WebdavEntry :=
  match getSelfEntry src with
  | none => ([], w, Except.error Err.unsupported)
  | some (p, isDir) =>
    if isDir then ([], w, Except.error Err.unsupported)
    else
      match env.buildURL toP with
      | Except.error e => ([], w, Except.error e)
      | Except.ok dest =>
        match env.request w method p (cmHeader override dest) with
        | (w1, some e) =>
          if override = false ∧ e = Err.preconditionFailed then cmProceed env method p toP w1
          else ([], w1, Except.error e)
        | (w1, none) => cmProceed env method p toP w1

/-- A WebDAV environment (over `W := Nat`) whose request always answers with
the precondition-failed sentinel (HTTP 412), and whose final `Get` returns a
fixed destination entry. -/
def precondEnv : WebdavEnv Nat :=
  { buildURL := fun toP => Except.ok ("http://h/" ++ toP),
    request := fun w _ _ _ => (w, some Err.preconditionFailed),
    getEntry := fun w toP => (w, Except.ok { path := toP, size := 0, isDir := false }) }

/-! ## Theorems -/

/-- Claim C2: the stream-copy helper `Copy` drops the error of a failing
`io.CopyBuffer` step. On a reader that delivers 10 bytes and then fails with
an I/O error, `Copy` returns written `0` (the partial bytes are not counted
either) and a `nil` error after a single cancellation poll: the `break` on
`ee != nil` leaves the named return value `err` unassigned, so the I/O error
is silently swallowed, contradicting the claim that it is returned to the
caller. -/
theorem copy_swallows_io_error :
    Copy (fun _ => false) [ReadEv.data 10, ReadEv.errEv (Err.ioError "read failed")] =
      (0, 1, none) := by
  simp [Copy, copyLoop, copyBufferRun]

/-- Claim C3: `Copy` does not poll `Canceled()` once per buffered chunk. On a
reader of three 32 KiB chunks with a context whose cancellation flag becomes
true right after the first poll, the single `io.CopyBuffer` call copies the
whole stream (its contract is to run to EOF), so all 98304 bytes are written
and only 2 polls ever happen for 3 chunks; the canceled error surfaces only
after the entire stream was already copied, contradicting the claimed
once-per-chunk polling and instant fail-fast. -/
theorem copy_polls_once_per_stream :
    Copy cancelAfterFirstPoll [ReadEv.data 32768, ReadEv.data 32768, ReadEv.data 32768] =
      (98304, 2, some Err.canceled) := by
  simp [Copy, copyLoop, copyBufferRun, cancelAfterFirstPoll]

/-- Counterexample to claim C4 as stated: for the non-2xx status 503 (not one
of 404/412/401), the remote-API error built by `afterRequest` carries the
fixed status field 500, not the response's status 503 (the 503 appears only in
the error's message text). -/
theorem afterRequest_code_not_status :
    remoteApiStatusOf (afterRequest 503) = some 500 ∧ (500 : Nat) ≠ 503 := by
  exact ⟨rfl, by decide⟩

/-- Claim C4 (amended): `afterRequest` maps every 2xx status to no error, 404
to not-found, 412 to the package-local precondition-failed sentinel, 401 to
unauthorized, and any other non-2xx status to a remote-API error whose status
field is the fixed value 500 and whose message carries the response's status
code. -/
theorem afterRequest_mapping (s : Nat) (h : s < 200 ∨ 300 ≤ s) :
    afterRequest 404 = some Err.notFound ∧
    afterRequest 412 = some Err.preconditionFailed ∧
    afterRequest 401 = some (Err.unauthorized (i18nT "drive.webdav.wrong_user_or_password" [])) ∧
    (s ≠ 404 → s ≠ 412 → s ≠ 401 →
      afterRequest s = some (Err.remoteApi 500 (i18nT "drive.webdav.remote_error" [toString s]))) ∧
    (∀ t, 200 ≤ t → t < 300 → afterRequest t = none) := by
  refine ⟨rfl, rfl, rfl, ?_, ?_⟩
  · intro h4 h12 h1
    unfold afterRequest
    rw [if_pos h, if_neg h4, if_neg h12, if_neg h1]
  · intro t ht1 ht2
    have hno : ¬(t < 200 ∨ t ≥ 300) := by omega
    unfold afterRequest
    rw [if_neg hno]

/-- Witness for `afterRequest_mapping` at the concrete status 503. -/
theorem afterRequest_mapping_witness :
    afterRequest 503 = some (Err.remoteApi 500 (i18nT "drive.webdav.remote_error" [toString 503])) :=
  (afterRequest_mapping 503 (by omega)).2.2.2.1 (by decide) (by decide) (by decide)

/-- Claim C5: on a content whose `GetURL` yields a plain public URL (no proxy
mark, no extra headers) and with proxying not forced, `DownloadIContent`
writes status 302 — but the `Location` header is never sent: the source calls
`WriteHeader(http.StatusFound)` *before* `Header().Set("Location", ...)`, and
per the `http.ResponseWriter` contract header-map changes after `WriteHeader`
have no effect on the wire. The final state shows status `some 302`, the
`Location` binding sitting in the (now inert) header map, and an *empty* set
of transmitted headers — so the response is not a redirect to the URL as the
claim (and spec) state. -/
theorem download_redirect_location_unsent :
    downloadIContent Except.ok plainURLContent false "GET" emptyResp =
      ({ headerMap := [("Location", "http://h/f")], status := some 302,
         sentHeader := [], body := 0 }, [], none) := by
  exact rfl

/-- The returned entry count of the `List` response loop equals the number of
responses passing the strict relative-depth filter. -/
theorem listEntriesM_length_aux (pfx path : String) (rs : List PropfindResp) :
    ∀ es, listEntriesM pfx path rs = some es →
      es.length = rs.countP
        (fun r => decide ((pathDepth r.href : Int) - (pathDepth pfx : Int) > (pathDepth path : Int))) := by
  induction rs with
  | nil =>
    intro es h
    rw [listEntriesM] at h
    cases h
    simp
  | cons r rest ih =>
    intro es h
    rw [listEntriesM] at h
    rw [List.countP_cons]
    by_cases hc : (pathDepth r.href : Int) - (pathDepth pfx : Int) > (pathDepth path : Int)
    · rw [if_pos hc] at h
      cases hne : newEntryM pfx r with
      | none => rw [hne] at h; cases h
      | some en =>
        rw [hne] at h
        cases hrest : listEntriesM pfx path rest with
        | none => rw [hrest] at h; cases h
        | some es2 =>
          rw [hrest] at h
          cases h
          simp [ih es2 hrest, hc]
    · rw [if_neg hc] at h
      have hd : decide ((pathDepth r.href : Int) - (pathDepth pfx : Int) > (pathDepth path : Int))
          = false := decide_eq_false hc
      simp only [hd, Bool.false_eq_true, if_false, add_zero]
      exact ih es h

/-- Counterexample to claim C7's concrete scenario as stated: `List("/x")`
under root prefix `/x` on the response with hrefs `/x/`, `/x/y`, `/x/z/`
yields *zero* entries, not the two entries `y` and `z`: every href has depth
at most 2, so its depth relative to the prefix (at most 1) is never strictly
greater than the requested path's depth 1. -/
theorem list_depth_scenario_cex :
    (listEntriesM "/x" "/x" scenarioResponses).map (fun es => es.map entryNameOf) = some [] ∧
    (some ([] : List String) ≠ some ["y", "z"]) := by
  exact ⟨rfl, by decide⟩

/-- Claim C7 (amended): the cache-miss `List` path returns exactly those
response entries whose path depth relative to the drive's URL path prefix is
strictly greater than the requested path's depth (hence excluding the
requested directory's self entry); in particular listing the drive root `/`
under root prefix `/x` on a response with hrefs `/x/`, `/x/y`, `/x/z/` yields
exactly the two entries `y` and `z`. -/
theorem list_depth_filter :
    (∀ (pfx path : String) (rs : List PropfindResp) (es : List WebdavEntry),
        listEntriesM pfx path rs = some es →
        es.length = rs.countP
          (fun r => decide ((pathDepth r.href : Int) - (pathDepth pfx : Int) > (pathDepth path : Int)))) ∧
    (listEntriesM "/x" "/" scenarioResponses).map (fun es => es.map entryNameOf) = some ["y", "z"] := by
  constructor
  · intro pfx path rs es h
    exact listEntriesM_length_aux pfx path rs es h
  · exact rfl

/-- Witness for `list_depth_filter` at the concrete scenario response. -/
theorem list_depth_filter_witness :
    ([{ path := "y", size := 3, isDir := false },
      { path := "z", size := 0, isDir := true }] : List WebdavEntry).length =
      scenarioResponses.countP
        (fun r => decide ((pathDepth r.href : Int) - (pathDepth "/x" : Int) > (pathDepth "/" : Int))) :=
  list_depth_filter.1 "/x" "/" scenarioResponses _ rfl

/-- Claim C8: for a source resolving to a file entry of this drive and a
destination URL that builds, when the `COPY`/`MOVE` request answers with the
precondition-failed sentinel, `copyOrMove` treats it as a benign no-op —
proceeding to the cache evictions and the final `Get(to)` — exactly when
overwrite was disallowed; with overwrite allowed the same response is returned
as a real error. -/
theorem copyOrMove_precondition_noop {W : Type} (env : WebdavEnv W) (method p toP dest : String)
    (ov : Bool) (w w1 : W)
    (hb : env.buildURL toP = Except.ok dest)
    (hreq : env.request w method p (cmHeader ov dest) = (w1, some Err.preconditionFailed)) :
    copyOrMove env method (MEntry.self p false) toP ov w =
      if ov then ([], w1, Except.error Err.preconditionFailed)
      else cmProceed env method p toP w1 := by
  simp only [copyOrMove, getSelfEntry, hb, hreq]
  cases ov with
  | true => simp
  | false => simp

/-- Witness for `copyOrMove_precondition_noop`: a `MOVE` against an
always-412 server with overwrite disallowed proceeds to the evictions and the
destination `Get`. -/
theorem copyOrMove_precondition_noop_witness :
    copyOrMove precondEnv "MOVE" (MEntry.self "a/f" false) "b/f" false 0 =
      cmProceed precondEnv "MOVE" "a/f" "b/f" 0 := by
  have h := copyOrMove_precondition_noop precondEnv "MOVE" "a/f" "b/f" ("http://h/" ++ "b/f")
    false 0 0 rfl rfl
  simpa using h

/-- Claim C9: `newEntry` slices the href by the length of the drive's URL path
prefix with no check. Whenever the href starts with the prefix (the unchecked
precondition) the slice — and hence `newEntry` — succeeds; whenever the href
is shorter than the prefix the slice is out of bounds and Go panics (`none` in
the model). -/
theorem newEntry_slice_safety :
    (∀ (pfx : String) (r : PropfindResp), pfx.data <+: r.href.data →
      (newEntryM pfx r).isSome = true) ∧
    (∀ (pfx : String) (r : PropfindResp), r.href.length < pfx.length →
      newEntryM pfx r = none) := by
  constructor
  · intro pfx r h
    have hlen : pfx.length ≤ r.href.length := h.length_le
    simp [newEntryM, goSliceFrom, hlen]
  · intro pfx r h
    have hlen : ¬ pfx.length ≤ r.href.length := by omega
    simp [newEntryM, goSliceFrom, hlen]

/-- Witness for `newEntry_slice_safety`: href `/x/y` under prefix `/x`
succeeds; href `/x` under the longer prefix `/xx/y` panics. -/
theorem newEntry_slice_safety_witness :
    (newEntryM "/x" { href := "/x/y", size := 0, isCollection := false }).isSome = true ∧
    newEntryM "/xx/y" { href := "/x", size := 0, isCollection := false } = none := by
  constructor
  · exact newEntry_slice_safety.1 "/x" _ (by decide)
  · exact newEntry_slice_safety.2 "/xx/y" _ (by decide)

/-- Claim C10: `GetIContentReader` falls back to `content.GetReader()` on
*every* `GetURL` error, while `DownloadIContent` falls back only on the
unsupported kind and returns every other `GetURL` error unchanged (attempting
no reader, writing nothing, producing no delivery effect). -/
theorem reader_fallback_vs_download
    (hg : String → Option (List (String × String)) → Except Err Reader)
    (pu : String → Except Err String) (c : Content) (e : Err)
    (h : c.getURL = Except.error e) :
    getIContentReader hg c = c.getReader ∧
      (e ≠ Err.unsupported → ∀ (fp : Bool) (m : String) (w : RespState),
        downloadIContent pu c fp m w = (w, [], some e)) := by
  constructor
  · simp [getIContentReader, h]
  · intro hne fp m w
    simp [downloadIContent, h, hne]

/-- Witness for `reader_fallback_vs_download` on a content whose `GetURL`
fails with a remote-API (not-unsupported) error. -/
theorem reader_fallback_vs_download_witness :
    getIContentReader (fun _ _ => Except.error Err.unsupported) urlErrContent =
      urlErrContent.getReader ∧
    downloadIContent Except.ok urlErrContent false "GET" emptyResp =
      (emptyResp, [], some (Err.remoteApi 503 "x")) := by
  have h := reader_fallback_vs_download (fun _ _ => Except.error Err.unsupported) Except.ok
    urlErrContent (Err.remoteApi 503 "x") rfl
  exact ⟨h.1, h.2 (by decide) false "GET" emptyResp⟩

mutual
/-- Every successful `copyAll` run emits exactly one walk event per node of
the snapshot tree — an `after` invocation, or a skip — in the order the walk
closes the nodes. -/
theorem copyAll_paths_aux {W : Type} (env : CopyEnv W) (n : EntryNode) (toP : String)
    (ov np : Bool) (w : W) (evs : List CopyEv) (w' : W) (b : Bool)
    (h : copyAll env n toP ov np w = (evs, w', Except.ok b)) :
    evs.map CopyEv.pathOf = walkPaths n := by
  cases n with
  | node info cs =>
    simp only [copyAll] at h
    split at h
    · simp at h
    · split at h
      · simp at h
      · split at h
        · -- directory node
          rename_i hty
          split at h
          · simp at h
          · rename_i w2 dirCreate heq2
            split at h
            · simp at h
            · rename_i evs0 w3 allp heq3
              simp only [runAfter] at h
              split at h
              · simp at h
              · simp only [Prod.mk.injEq, Except.ok.injEq] at h
                obtain ⟨hevs, hw, hb⟩ := h
                subst hevs
                simp only [walkPaths, if_pos hty, List.map_append, List.map_cons, List.map_nil,
                  CopyEv.pathOf]
                rw [copyChildren_paths_aux env cs toP ov dirCreate w2 evs0 w3 allp heq3]
        · -- file node
          rename_i hty
          split at h
          · simp at h
          · -- skip: destination file exists, overwrite disallowed
            simp only [Prod.mk.injEq, Except.ok.injEq] at h
            obtain ⟨hevs, hw, hb⟩ := h
            subst hevs
            simp [walkPaths, if_neg hty, CopyEv.pathOf]
          · -- the copy primitive ran; then the after callback
            simp only [runAfter] at h
            split at h
            · simp at h
            · simp only [Prod.mk.injEq, Except.ok.injEq] at h
              obtain ⟨hevs, hw, hb⟩ := h
              subst hevs
              simp [walkPaths, if_neg hty, CopyEv.pathOf]
/-- The children loop emits exactly the walk events of the children, in
order, whenever it completes without an error. -/
theorem copyChildren_paths_aux {W : Type} (env : CopyEnv W) (cs : NodeList) (toP : String)
    (ov dc : Bool) (w : W) (evs : List CopyEv) (w' : W) (b : Bool)
    (h : copyChildren env cs toP ov dc w = (evs, w', Except.ok b)) :
    evs.map CopyEv.pathOf = walkPathsList cs := by
  cases cs with
  | nil =>
    simp only [copyChildren] at h
    simp only [Prod.mk.injEq, Except.ok.injEq] at h
    obtain ⟨hevs, hw, hb⟩ := h
    subst hevs
    simp [walkPathsList]
  | cons c rest =>
    simp only [copyChildren] at h
    split at h
    · simp at h
    · rename_i evs1 w1 r heq1
      split at h
      · simp at h
      · rename_i evs2 w2 r2 heq2
        simp only [Prod.mk.injEq, Except.ok.injEq] at h
        obtain ⟨hevs, hw, hb⟩ := h
        subst hevs
        simp only [walkPathsList, List.map_append]
        rw [copyAll_paths_aux env c (childDest toP c) ov dc w evs1 w1 r heq1]
        rw [copyChildren_paths_aux env rest toP ov dc w1 evs2 w2 r2 heq2]
end

/-- Whenever the children loop completes without an error, its accumulated
conjunction equals the `all` of the per-child flags collected by `childFlags`
(and every child was processed: the collected list has one flag per child). -/
theorem copyChildren_flags_aux {W : Type} (env : CopyEnv W) (cs : NodeList) (toP : String)
    (ov dc : Bool) (w : W) (evs : List CopyEv) (w' : W) (b : Bool)
    (h : copyChildren env cs toP ov dc w = (evs, w', Except.ok b)) :
    ∃ fs : List Bool, childFlags env cs toP ov dc w = Except.ok fs ∧
      fs.length = cs.len ∧ b = fs.all id := by
  cases cs with
  | nil =>
    simp only [copyChildren] at h
    simp only [Prod.mk.injEq, Except.ok.injEq] at h
    obtain ⟨hevs, hw, hb⟩ := h
    exact ⟨[], rfl, rfl, by simp [← hb]⟩
  | cons c rest =>
    simp only [copyChildren] at h
    split at h
    · simp at h
    · rename_i evs1 w1 r heq1
      split at h
      · simp at h
      · rename_i evs2 w2 r2 heq2
        simp only [Prod.mk.injEq, Except.ok.injEq] at h
        obtain ⟨hevs, hw, hb⟩ := h
        obtain ⟨fs, hfs, hlen, hall⟩ :=
          copyChildren_flags_aux env rest toP ov dc w1 evs2 w2 r2 heq2
        refine ⟨r :: fs, ?_, ?_, ?_⟩
        · simp only [childFlags, heq1, hfs]
        · simp [NodeList.len, hlen]
        · rw [← hb, hall]
          simp [List.all_cons, id]

/-- Claim C1 (amended): in a successful apply walk every node of the snapshot
tree produces exactly one closing event, in walk order: for a copied file or a
descended directory the `after` callback is invoked exactly once with that
node and its fully-processed flag (and the shared task context, which the
model threads through every call); for a file skipped because the destination
exists and overwrite is disallowed, the walk records the skip and returns
not-fully-processed *without* invoking the callback. -/
theorem copyAll_after_walk {W : Type} (env : CopyEnv W) (n : EntryNode) (toP : String)
    (ov np : Bool) (w : W) (evs : List CopyEv) (w' : W) (b : Bool)
    (h : copyAll env n toP ov np w = (evs, w', Except.ok b)) :
    evs.map CopyEv.pathOf = walkPaths n :=
  copyAll_paths_aux env n toP ov np w evs w' b h

/-- Counterexample to claim C1 as stated: a single file node whose destination
exists with overwrite disallowed is processed without error (the call returns
`ok false`), yet the `after` callback is never invoked for it — the skip path
returns before the callback, so the event trace holds only the skip and no
`after` invocation with this node. -/
theorem copyAll_skip_no_callback :
    copyAll skipEnv oneFileNode "d/a" false false 0 =
      ([CopyEv.skipEv "a"], 0, Except.ok false) ∧
    (∀ flag : Bool, CopyEv.afterEv "a" flag ∉ [CopyEv.skipEv "a"]) :=
  ⟨rfl, by decide⟩

/-- Witness for `copyAll_after_walk`: copying directory `s` with child `s/f`
onto a fresh destination invokes `after` exactly once per node, in walk
order (`s/f` then `s`). -/
theorem copyAll_after_walk_witness :
    ([CopyEv.afterEv "s/f" true, CopyEv.afterEv "s" true] : List CopyEv).map CopyEv.pathOf =
      walkPaths dirOneChild :=
  copyAll_after_walk freshEnv dirOneChild "d" false false 0
    [CopyEv.afterEv "s/f" true, CopyEv.afterEv "s" true] 0 true rfl

/-- Claim C6: for every directory node whose `copyAll` step completes without
an error, the returned fully-processed flag is the conjunction (`all`) of the
flags returned by its children's sub-calls, with one flag per child — so a
single skipped file beneath the directory forces `false` at the directory and
(by the same theorem applied at each level) at every ancestor, while every
sibling is still processed rather than the walk aborting. -/
theorem copyAll_dir_flag_conj {W : Type} (env : CopyEnv W) (info : EntryInfo) (cs : NodeList)
    (toP : String) (ov np : Bool) (w : W) (evs : List CopyEv) (w' : W) (b : Bool)
    (hdir : info.type = EntryType.dir)
    (h : copyAll env (EntryNode.node info cs) toP ov np w = (evs, w', Except.ok b)) :
    ∃ (w2 : W) (dc : Bool) (fs : List Bool),
      childFlags env cs toP ov dc w2 = Except.ok fs ∧ fs.length = cs.len ∧ b = fs.all id := by
  simp only [copyAll] at h
  split at h
  · simp at h
  · split at h
    · simp at h
    · split at h
      · rename_i hty
        split at h
        · simp at h
        · rename_i w2 dirCreate heq2
          split at h
          · simp at h
          · rename_i evs0 w3 allp heq3
            simp only [runAfter] at h
            split at h
            · simp at h
            · simp only [Prod.mk.injEq, Except.ok.injEq] at h
              obtain ⟨hevs, hw, hb⟩ := h
              obtain ⟨fs, hfs, hlen, hall⟩ :=
                copyChildren_flags_aux env cs toP ov dirCreate w2 evs0 w3 allp heq3
              refine ⟨w2, dirCreate, fs, hfs, hlen, ?_⟩
              rw [← hb]
              exact hall
      · rename_i hty
        exact absurd hdir hty

/-- Witness for `copyAll_dir_flag_conj`: copying `s` (children `s/a`, `s/b`)
onto an existing directory `d` whose `d/a` already exists, with overwrite
disallowed, processes both children (`s/a` skipped, `s/b` copied) and reports
`false` — the conjunction of the children's flags. -/
theorem copyAll_dir_flag_conj_witness :
    ∃ (w2 : Nat) (dc : Bool) (fs : List Bool),
      childFlags mixedEnv twoChildrenList "d" false dc w2 = Except.ok fs ∧
      fs.length = twoChildrenList.len ∧ false = fs.all id :=
  copyAll_dir_flag_conj mixedEnv { path := "s", type := EntryType.dir, size := -1 }
    twoChildrenList "d" false false 0
    [CopyEv.skipEv "s/a", CopyEv.afterEv "s/b" true, CopyEv.afterEv "s" false] 0 false rfl rfl

end GoDrive
